import Mathlib

/-!
Shallow embedding of the `LandRegistry` Solidity contract
(src/blockchain/contracts/LandRegistry.sol) and of the frontend API
client's response interceptor (src/frontend/src/services/apiService.ts),
together with proofs of the specification's claims about them.

Contract state is modelled as a Lean structure; each external entry point
is a function returning `Except String (result × state × events)`, where an
`error` models an EVM revert (`require` failure).  Transaction-level
semantics (`applyTx`) returns the pre-state on error, which is exactly the
EVM's atomic-revert behaviour.  Machine integers (`uint256`, `address`) are
modelled as `Nat`; no arithmetic in the contract can overflow `2^256` on the
traces we consider, and Solidity 0.8 reverts on overflow, so `Nat` with the
counter incremented one at a time is faithful.
-/

namespace LandRegistry

/-- Addresses are modelled as naturals; `0` is the zero address. -/
abbrev Address := Nat

/-- The contract's access-control roles (`DEFAULT_ADMIN_ROLE` plus the four
`keccak256`-derived role identifiers, which are pairwise distinct). -/
inductive Role where
  | defaultAdmin
  | admin
  | notary
  | surveyor
  | taxAuthority
deriving DecidableEq, Repr

/-- `enum PropertyType` of the contract. -/
inductive PropertyType where
  | RESIDENTIAL
  | COMMERCIAL
  | INDUSTRIAL
  | AGRICULTURAL
  | FOREST
  | OTHER
deriving DecidableEq, Repr

/-- `enum PropertyStatus` of the contract. -/
inductive PropertyStatus where
  | ACTIVE
  | DISPUTED
  | FROZEN
  | TRANSFERRED
deriving DecidableEq, Repr

/-- `struct Property` of the contract. -/
structure Property where
  id : Nat
  location : String
  coordinates : String
  area : Nat
  value : Nat
  propertyType : PropertyType
  status : PropertyStatus
  registrationDate : Nat
  lastTransferDate : Nat
  documentHash : String
  registrar : Address
  verified : Bool
deriving DecidableEq, Repr

/-- The all-zero `Property`, the default value of the Solidity
`mapping(uint256 => Property)` at unset keys (enum fields default to the
first member). -/
def Property.zero : Property :=
  { id := 0, location := "", coordinates := "", area := 0, value := 0,
    propertyType := .RESIDENTIAL, status := .ACTIVE,
    registrationDate := 0, lastTransferDate := 0, documentHash := "",
    registrar := 0, verified := false }

/-- The events declared by the contract (ERC721's own `Transfer` events are
not part of the contract's declared interface and are omitted). -/
inductive Event where
  | PropertyRegistered (propertyId : Nat) (owner : Address) (location : String)
      (value : Nat) (registrar : Address)
  | PropertyTransferred (propertyId : Nat) (fromAddr toAddr : Address) (value : Nat)
  | PropertyVerified (propertyId : Nat) (surveyor : Address) (verified : Bool)
  | PropertyStatusChanged (propertyId : Nat) (oldStatus newStatus : PropertyStatus)
  | PropertyValueUpdated (propertyId : Nat) (oldValue newValue : Nat) (updater : Address)
deriving DecidableEq, Repr

/-- The contract's storage: role assignments (`AccessControl`), the ERC721
owner map (`_owners`, `0` meaning unminted), token URIs, the three declared
mappings, the id counter, and the `Pausable` flag. -/
@[ext]
structure State where
  hasRole : Role → Address → Bool
  owners : Nat → Address
  tokenURIs : Nat → String
  properties : Nat → Property
  locationToPropertyId : String → Nat
  ownerProperties : Address → List Nat
  propertyIdCounter : Nat
  paused : Bool

/-- ERC721 `_exists`: a token exists iff its owner slot is non-zero. -/
def State.tokenExists (s : State) (tokenId : Nat) : Prop :=
  s.owners tokenId ≠ 0

instance (s : State) (tokenId : Nat) : Decidable (s.tokenExists tokenId) := by
  unfold State.tokenExists; infer_instance

/-- The constructor: the deployer receives `DEFAULT_ADMIN_ROLE` and
`ADMIN_ROLE`; all storage starts zeroed. -/
def initState (deployer : Address) : State :=
  { hasRole := fun r a =>
      if (r = Role.defaultAdmin ∨ r = Role.admin) ∧ a = deployer then true else false,
    owners := fun _ => 0,
    tokenURIs := fun _ => "",
    properties := fun _ => Property.zero,
    locationToPropertyId := fun _ => 0,
    ownerProperties := fun _ => [],
    propertyIdCounter := 0,
    paused := false }

/-- `registerProperty` (lines 121–165): notary-gated, pausable registration.
Checks mirror the source's `require`s in order, then the counter is
incremented before use, the NFT is minted (`_safeMint`'s own check that the
token id is unminted is included), the struct is stored, the two index
mappings are updated, and the event is emitted.  Returns the new id.
`registerPost` is the successful call's post-state. -/
def registerPost (s : State) (caller owner : Address)
    (location coordinates : String) (area value : Nat)
    (propertyType : PropertyType) (documentHash uri : String)
    (timestamp : Nat) : State :=
  let propertyId := s.propertyIdCounter + 1
  let prop : Property :=
    { id := propertyId, location := location, coordinates := coordinates,
      area := area, value := value, propertyType := propertyType,
      status := .ACTIVE, registrationDate := timestamp,
      lastTransferDate := timestamp, documentHash := documentHash,
      registrar := caller, verified := false }
  { s with
    propertyIdCounter := propertyId,
    owners := fun t => if t = propertyId then owner else s.owners t,
    tokenURIs := fun t => if t = propertyId then uri else s.tokenURIs t,
    properties := fun t => if t = propertyId then prop else s.properties t,
    locationToPropertyId := fun L =>
      if L = location then propertyId else s.locationToPropertyId L,
    ownerProperties := fun a =>
      if a = owner then s.ownerProperties a ++ [propertyId]
      else s.ownerProperties a }

def registerProperty (s : State) (caller owner : Address)
    (location coordinates : String) (area value : Nat)
    (propertyType : PropertyType) (documentHash uri : String)
    (timestamp : Nat) : Except String (Nat × State × List Event) :=
  if ¬ s.hasRole .notary caller then .error "AccessControl: account is missing role"
  else if s.paused then .error "Pausable: paused"
  else if owner = 0 then .error "Invalid owner address"
  else if location = "" then .error "Location cannot be empty"
  else if area = 0 then .error "Area must be greater than 0"
  else if s.locationToPropertyId location ≠ 0 then
    .error "Property already exists at this location"
  else if s.owners (s.propertyIdCounter + 1) ≠ 0 then .error "ERC721: token already minted"
  else
    .ok (s.propertyIdCounter + 1,
         registerPost s caller owner location coordinates area value propertyType
           documentHash uri timestamp,
         [.PropertyRegistered (s.propertyIdCounter + 1) owner location value caller])

/-- `_removePropertyFromOwner` (lines 305–314): find the first index holding
`propertyId`, overwrite it with the array's last element, pop; unchanged if
the id is absent. -/
def removePropertyFromOwner (l : List Nat) (propertyId : Nat) : List Nat :=
  if propertyId ∈ l then
    (l.set (l.indexOf propertyId) (l.getLastD 0)).dropLast
  else l

/-- The state after `transferProperty`'s three struct-field writes (value,
transfer timestamp, and status set to `TRANSFERRED`), before the owner-index
and NFT updates. -/
def transferMid (s : State) (propertyId : Nat) (newValue timestamp : Nat) : State :=
  { s with
    properties := fun t =>
      if t = propertyId then
        { s.properties propertyId with
          value := newValue, lastTransferDate := timestamp,
          status := .TRANSFERRED }
      else s.properties t }

/-- Post-state of a successful `transferProperty`: starting from the
intermediate `transferMid` state, the per-owner index arrays are fixed
(`_removePropertyFromOwner` on the current owner, push on the new owner),
the ERC721 owner slot is reassigned, and the status is restored to
`ACTIVE`. -/
def transferPost (s : State) (propertyId : Nat) (newOwner : Address)
    (newValue timestamp : Nat) : State :=
  let currentOwner := s.owners propertyId
  let s1 := transferMid s propertyId newValue timestamp
  let s2 : State :=
    { s1 with
      ownerProperties := fun a =>
        if a = currentOwner then removePropertyFromOwner (s1.ownerProperties a) propertyId
        else if a = newOwner then s1.ownerProperties a ++ [propertyId]
        else s1.ownerProperties a }
  let s3 : State :=
    { s2 with owners := fun t => if t = propertyId then newOwner else s2.owners t }
  { s3 with
    properties := fun t =>
      if t = propertyId then { s3.properties propertyId with status := .ACTIVE }
      else s3.properties t }

/-- `transferProperty` (lines 173–201): notary-gated, pausable.  Checks
existence, non-zero and distinct new owner, `ACTIVE` status; then updates
value/timestamp, marks `TRANSFERRED`, fixes both per-owner index arrays,
performs the ERC721 `_transfer`, and restores `ACTIVE`. -/
def transferProperty (s : State) (caller : Address) (propertyId : Nat)
    (newOwner : Address) (newValue timestamp : Nat) :
    Except String (State × List Event) :=
  if ¬ s.hasRole .notary caller then .error "AccessControl: account is missing role"
  else if s.paused then .error "Pausable: paused"
  else if s.owners propertyId = 0 then .error "Property does not exist"
  else if newOwner = 0 then .error "Invalid new owner address"
  else if (s.properties propertyId).status ≠ .ACTIVE then
    .error "Property is not transferable"
  else if s.owners propertyId = newOwner then .error "Cannot transfer to same owner"
  else
    .ok (transferPost s propertyId newOwner newValue timestamp,
         [.PropertyTransferred propertyId (s.owners propertyId) newOwner newValue])

/-- `verifyProperty` (lines 208–217): surveyor-gated, pausable; sets the
`verified` flag of an existing property and emits the event. -/
def verifyPost (s : State) (propertyId : Nat) (isVerified : Bool) : State :=
  { s with
    properties := fun t =>
      if t = propertyId then { s.properties propertyId with verified := isVerified }
      else s.properties t }

def verifyProperty (s : State) (caller : Address) (propertyId : Nat)
    (isVerified : Bool) : Except String (State × List Event) :=
  if ¬ s.hasRole .surveyor caller then .error "AccessControl: account is missing role"
  else if s.paused then .error "Pausable: paused"
  else if s.owners propertyId = 0 then .error "Property does not exist"
  else
    .ok (verifyPost s propertyId isVerified, [.PropertyVerified propertyId caller isVerified])

/-- `changePropertyStatus` (lines 224–234): admin-gated, pausable; replaces
the status of an existing property and emits old/new status. -/
def changeStatusPost (s : State) (propertyId : Nat) (newStatus : PropertyStatus) : State :=
  { s with
    properties := fun t =>
      if t = propertyId then { s.properties propertyId with status := newStatus }
      else s.properties t }

def changePropertyStatus (s : State) (caller : Address) (propertyId : Nat)
    (newStatus : PropertyStatus) : Except String (State × List Event) :=
  if ¬ s.hasRole .admin caller then .error "AccessControl: account is missing role"
  else if s.paused then .error "Pausable: paused"
  else if s.owners propertyId = 0 then .error "Property does not exist"
  else
    .ok (changeStatusPost s propertyId newStatus,
         [.PropertyStatusChanged propertyId (s.properties propertyId).status newStatus])

/-- `updatePropertyValue` (lines 241–252): tax-authority-gated, pausable;
requires an existing property and a positive new value. -/
def updateValuePost (s : State) (propertyId : Nat) (newValue : Nat) : State :=
  { s with
    properties := fun t =>
      if t = propertyId then { s.properties propertyId with value := newValue }
      else s.properties t }

def updatePropertyValue (s : State) (caller : Address) (propertyId : Nat)
    (newValue : Nat) : Except String (State × List Event) :=
  if ¬ s.hasRole .taxAuthority caller then .error "AccessControl: account is missing role"
  else if s.paused then .error "Pausable: paused"
  else if s.owners propertyId = 0 then .error "Property does not exist"
  else if newValue = 0 then .error "Value must be greater than 0"
  else
    .ok (updateValuePost s propertyId newValue,
         [.PropertyValueUpdated propertyId (s.properties propertyId).value newValue caller])

/-- `pause` (lines 289–291): admin-gated; `Pausable._pause` itself reverts
when already paused. -/
def pauseContract (s : State) (caller : Address) : Except String (State × List Event) :=
  if ¬ s.hasRole .admin caller then .error "AccessControl: account is missing role"
  else if s.paused then .error "Pausable: paused"
  else .ok ({ s with paused := true }, [])

/-- `unpause` (lines 296–298): admin-gated; `Pausable._unpause` reverts when
not paused. -/
def unpauseContract (s : State) (caller : Address) : Except String (State × List Event) :=
  if ¬ s.hasRole .admin caller then .error "AccessControl: account is missing role"
  else if ¬ s.paused then .error "Pausable: not paused"
  else .ok ({ s with paused := false }, [])

/-- Inherited `AccessControl.grantRole`: callable by a holder of the role's
admin role, which for every role of this contract is `DEFAULT_ADMIN_ROLE`
(no `_setRoleAdmin` call appears in the source). -/
def grantRole (s : State) (caller : Address) (role : Role) (account : Address) :
    Except String (State × List Event) :=
  if ¬ s.hasRole .defaultAdmin caller then .error "AccessControl: account is missing role"
  else
    .ok ({ s with hasRole := fun r a =>
            if r = role ∧ a = account then true else s.hasRole r a }, [])

/-- Inherited `AccessControl.revokeRole`, likewise gated by
`DEFAULT_ADMIN_ROLE`. -/
def revokeRole (s : State) (caller : Address) (role : Role) (account : Address) :
    Except String (State × List Event) :=
  if ¬ s.hasRole .defaultAdmin caller then .error "AccessControl: account is missing role"
  else
    .ok ({ s with hasRole := fun r a =>
            if r = role ∧ a = account then false else s.hasRole r a }, [])

/-- View `getProperty` (lines 258–261). -/
def getProperty (s : State) (propertyId : Nat) : Except String Property :=
  if s.owners propertyId = 0 then .error "Property does not exist"
  else .ok (s.properties propertyId)

/-- View `getPropertyIdByLocation` (lines 267–269): the raw mapping read,
`0` when unset. -/
def getPropertyIdByLocation (s : State) (location : String) : Nat :=
  s.locationToPropertyId location

/-- View `getPropertiesByOwner` (lines 275–277). -/
def getPropertiesByOwner (s : State) (owner : Address) : List Nat :=
  s.ownerProperties owner

/-- View `getTotalProperties` (lines 282–284). -/
def getTotalProperties (s : State) : Nat :=
  s.propertyIdCounter

/-- One external transaction against the contract. -/
inductive Tx where
  | register (caller owner : Address) (location coordinates : String)
      (area value : Nat) (propertyType : PropertyType)
      (documentHash uri : String) (timestamp : Nat)
  | transfer (caller : Address) (propertyId : Nat) (newOwner : Address)
      (newValue timestamp : Nat)
  | verify (caller : Address) (propertyId : Nat) (isVerified : Bool)
  | changeStatus (caller : Address) (propertyId : Nat) (newStatus : PropertyStatus)
  | updateValue (caller : Address) (propertyId : Nat) (newValue : Nat)
  | pauseTx (caller : Address)
  | unpauseTx (caller : Address)
  | grant (caller : Address) (role : Role) (account : Address)
  | revoke (caller : Address) (role : Role) (account : Address)

/-- Run one transaction, returning the post-state and emitted events, or the
revert message. -/
def runTx (s : State) : Tx → Except String (State × List Event)
  | .register c o loc co a v pt dh u ts =>
      (registerProperty s c o loc co a v pt dh u ts).map (fun r => (r.2.1, r.2.2))
  | .transfer c pid no nv ts => transferProperty s c pid no nv ts
  | .verify c pid b => verifyProperty s c pid b
  | .changeStatus c pid st => changePropertyStatus s c pid st
  | .updateValue c pid nv => updatePropertyValue s c pid nv
  | .pauseTx c => pauseContract s c
  | .unpauseTx c => unpauseContract s c
  | .grant c r a => grantRole s c r a
  | .revoke c r a => revokeRole s c r a

/-- Transaction-level semantics: on revert the chain state is unchanged
(EVM atomicity). -/
def applyTx (s : State) (tx : Tx) : State :=
  match runTx s tx with
  | .ok (s', _) => s'
  | .error _ => s

/-- Run a list of transactions in order. -/
def applyTxs (s : State) (txs : List Tx) : State :=
  txs.foldl applyTx s

/-- A state is reachable if it arises from some deployment followed by some
sequence of transactions. -/
def Reachable (s : State) : Prop :=
  ∃ deployer txs, s = applyTxs (initState deployer) txs

/-- Number of transactions in `txs` (run from `s`) that are successful
`registerProperty` calls. -/
def successfulRegisterCount : State → List Tx → Nat
  | _, [] => 0
  | s, tx :: rest =>
      (match tx with
       | .register _ _ _ _ _ _ _ _ _ _ => if (runTx s tx).isOk then 1 else 0
       | _ => 0) + successfulRegisterCount (applyTx s tx) rest

/-- `true` iff some transaction of `txs` (run from `s`) is a successful
`registerProperty` call whose location argument is `L`. -/
def registeredAt (L : String) : State → List Tx → Bool
  | _, [] => false
  | s, tx :: rest =>
      (match tx with
       | .register _ _ loc _ _ _ _ _ _ _ => (runTx s tx).isOk && loc == L
       | _ => false) || registeredAt L (applyTx s tx) rest

/-- The contract invariant that makes the per-owner index arrays a faithful
mirror of ERC721 ownership: every array is duplicate-free, membership in an
array implies that array's key really owns the token (and is non-zero), and
every minted token id lies between `1` and the current counter. -/
def Inv (s : State) : Prop :=
  (∀ a, (s.ownerProperties a).Nodup) ∧
  (∀ a pid, pid ∈ s.ownerProperties a → a ≠ 0 ∧ s.owners pid = a) ∧
  (∀ pid, s.owners pid ≠ 0 → 1 ≤ pid ∧ pid ≤ s.propertyIdCounter)

/-! ### Concrete states used by the witnesses
Deployer is address 1; it grants the notary role to address 2, the surveyor
role to address 5, and the tax-authority role to address 6; address 2 then
registers a property for owner 3. -/

def wGrants : List Tx :=
  [.grant 1 .notary 2, .grant 1 .surveyor 5, .grant 1 .taxAuthority 6]

def wReg : Tx := .register 2 3 "Ouaga parcel 12" "12.37,-1.52" 400 9000
  .RESIDENTIAL "QmHash" "ipfs://uri" 100

def wBase : State := applyTxs (initState 1) wGrants

def wReg1 : State := applyTx wBase wReg

def wPaused : State := applyTx wReg1 (.pauseTx 1)

def wDisputed : State := applyTx wReg1 (.changeStatus 1 1 .DISPUTED)

end LandRegistry

namespace ApiClient

/-- The browser-visible state the interceptor touches: the local-storage
key/value store and the window location. -/
structure ClientState where
  localStorage : String → Option String
  href : String

/-- The error branch of the axios response interceptor in
`src/frontend/src/services/apiService.ts` (lines 104–115): when the failed
response carries status 401 it removes `auth_token` from local storage and
redirects to `/`; in every case the error is propagated (`Promise.reject`),
which the returned `Bool` records. -/
def responseErrorInterceptor (st : ClientState) (status : Option Nat) :
    ClientState × Bool :=
  if status = some 401 then
    ({ localStorage := fun k => if k = "auth_token" then none else st.localStorage k,
       href := "/" }, true)
  else (st, true)

end ApiClient

namespace LandRegistry

/-! ## Helper lemmas -/


theorem getLastD_mem_of_ne_nil {l : List Nat} (h : l ≠ []) : l.getLastD 0 ∈ l := by
  rw [List.getLastD_eq_getLast?, List.getLast?_eq_getLast l h]
  exact List.getLast_mem h

theorem getLastD_eq_getElem {l : List Nat} (h : l ≠ []) (hlt : l.length - 1 < l.length) :
    l.getLastD 0 = l[l.length - 1] := by
  rw [List.getLastD_eq_getLast?, List.getLast?_eq_getLast l h, List.getLast_eq_getElem]
  rfl

theorem mem_of_mem_removePropertyFromOwner {l : List Nat} {pid x : Nat}
    (h : x ∈ removePropertyFromOwner l pid) : x ∈ l := by
  unfold removePropertyFromOwner at h
  split at h
  case isTrue hmem =>
    have hne : l ≠ [] := List.ne_nil_of_mem hmem
    rcases List.mem_or_eq_of_mem_set (List.mem_of_mem_dropLast h) with h' | rfl
    · exact h'
    · exact getLastD_mem_of_ne_nil hne
  case isFalse => exact h

theorem not_mem_removePropertyFromOwner_self {l : List Nat} {pid : Nat}
    (hnd : l.Nodup) : pid ∉ removePropertyFromOwner l pid := by
  unfold removePropertyFromOwner
  split
  case isTrue hmem =>
    intro hc
    have hne : l ≠ [] := List.ne_nil_of_mem hmem
    have hi : l.indexOf pid < l.length := List.indexOf_lt_length.2 hmem
    have hlast : l.length - 1 < l.length := by omega
    rcases List.mem_iff_getElem.1 hc with ⟨j, hj, hval⟩
    have hlen' : ((l.set (l.indexOf pid) (l.getLastD 0)).dropLast).length = l.length - 1 := by
      rw [List.length_dropLast, List.length_set]
    have hjlen : j < l.length - 1 := by omega
    simp only [List.getElem_dropLast, List.getElem_set] at hval
    by_cases hij : l.indexOf pid = j
    · simp only [if_pos hij] at hval
      rw [getLastD_eq_getElem hne hlast] at hval
      have h2 : l[l.length - 1] = l[l.indexOf pid] := by
        rw [hval, List.getElem_indexOf hi]
      have := (hnd.getElem_inj_iff).1 h2
      omega
    · simp only [if_neg hij] at hval
      have h2 : l[j] = l[l.indexOf pid] := by
        rw [hval, List.getElem_indexOf hi]
      have := (hnd.getElem_inj_iff).1 h2
      omega
  case isFalse hmem => exact hmem

theorem nodup_removePropertyFromOwner {l : List Nat} {pid : Nat}
    (hnd : l.Nodup) : (removePropertyFromOwner l pid).Nodup := by
  unfold removePropertyFromOwner
  split
  case isTrue hmem =>
    have hne : l ≠ [] := List.ne_nil_of_mem hmem
    have hi : l.indexOf pid < l.length := List.indexOf_lt_length.2 hmem
    have hlast : l.length - 1 < l.length := by omega
    rw [List.nodup_iff_getElem?_ne_getElem?]
    intro i j hij hjlen hval
    have hlen' : ((l.set (l.indexOf pid) (l.getLastD 0)).dropLast).length = l.length - 1 := by
      rw [List.length_dropLast, List.length_set]
    have hjl : j < l.length - 1 := by omega
    have hil : i < l.length - 1 := by omega
    have hilen : i < ((l.set (l.indexOf pid) (l.getLastD 0)).dropLast).length := by omega
    rw [List.getElem?_eq_getElem hilen, List.getElem?_eq_getElem hjlen] at hval
    have hval' := Option.some.inj hval
    simp only [List.getElem_dropLast, List.getElem_set] at hval'
    by_cases hii : l.indexOf pid = i <;> by_cases hjj : l.indexOf pid = j
    · omega
    · simp only [if_pos hii, if_neg hjj] at hval'
      have h2 := (getLastD_eq_getElem hne hlast).symm.trans hval'
      have := (hnd.getElem_inj_iff).1 h2
      omega
    · simp only [if_neg hii, if_pos hjj] at hval'
      have h2 := hval'.trans (getLastD_eq_getElem hne hlast)
      have := (hnd.getElem_inj_iff).1 h2
      omega
    · simp only [if_neg hii, if_neg hjj] at hval'
      have := (hnd.getElem_inj_iff).1 hval'
      omega
  case isFalse => exact hnd



theorem registerProperty_ok_elim {s : State} {c o : Address} {loc co : String}
    {a v : Nat} {pt : PropertyType} {dh u : String} {ts : Nat}
    {pid : Nat} {s' : State} {evs : List Event}
    (h : registerProperty s c o loc co a v pt dh u ts = .ok (pid, s', evs)) :
    pid = s.propertyIdCounter + 1 ∧
    s' = registerPost s c o loc co a v pt dh u ts ∧
    evs = [.PropertyRegistered pid o loc v c] ∧
    s.hasRole .notary c = true ∧ s.paused = false ∧ o ≠ 0 ∧ loc ≠ "" ∧ a ≠ 0 ∧
    s.locationToPropertyId loc = 0 ∧ s.owners pid = 0 := by
  unfold registerProperty at h
  split_ifs at h with h1 h2 h3 h4 h5 h6 h7 <;> try exact Except.noConfusion h
  rw [Bool.not_eq_true] at h2
  rw [not_ne_iff] at h6
  rw [not_ne_iff] at h7
  simp only [Except.ok.injEq, Prod.mk.injEq] at h
  obtain ⟨hp, hs, he⟩ := h
  subst hp
  exact ⟨rfl, hs.symm, he.symm, h1, h2, h3, h4, h5, h6, h7⟩

theorem registerProperty_ok_iff {s : State} {c o : Address} {loc co : String}
    {a v : Nat} {pt : PropertyType} {dh u : String} {ts : Nat} :
    (∃ r, registerProperty s c o loc co a v pt dh u ts = .ok r) ↔
      (s.hasRole .notary c = true ∧ s.paused = false ∧ o ≠ 0 ∧ loc ≠ "" ∧ a ≠ 0 ∧
       s.locationToPropertyId loc = 0 ∧ s.owners (s.propertyIdCounter + 1) = 0) := by
  unfold registerProperty
  split_ifs with h1 h2 h3 h4 h5 h6 h7 <;> simp_all

theorem transferProperty_ok_elim {s : State} {c : Address} {pid : Nat}
    {no : Address} {nv ts : Nat} {s' : State} {evs : List Event}
    (h : transferProperty s c pid no nv ts = .ok (s', evs)) :
    s' = transferPost s pid no nv ts ∧
    evs = [.PropertyTransferred pid (s.owners pid) no nv] ∧
    s.hasRole .notary c = true ∧ s.paused = false ∧ s.owners pid ≠ 0 ∧ no ≠ 0 ∧
    (s.properties pid).status = .ACTIVE ∧ s.owners pid ≠ no := by
  unfold transferProperty at h
  split_ifs at h with h1 h2 h3 h4 h5 h6 <;> try exact Except.noConfusion h
  rw [Bool.not_eq_true] at h2
  rw [not_ne_iff] at h5
  simp only [Except.ok.injEq, Prod.mk.injEq] at h
  obtain ⟨hs, he⟩ := h
  exact ⟨hs.symm, he.symm, h1, h2, h3, h4, h5, h6⟩

theorem transferProperty_ok_iff {s : State} {c : Address} {pid : Nat}
    {no : Address} {nv ts : Nat} :
    (∃ r, transferProperty s c pid no nv ts = .ok r) ↔
      (s.hasRole .notary c = true ∧ s.paused = false ∧ s.owners pid ≠ 0 ∧ no ≠ 0 ∧
       (s.properties pid).status = .ACTIVE ∧ s.owners pid ≠ no) := by
  unfold transferProperty
  split_ifs with h1 h2 h3 h4 h5 h6 <;> simp_all



theorem verifyProperty_ok_elim {s : State} {c : Address} {pid : Nat} {b : Bool}
    {s' : State} {evs : List Event}
    (h : verifyProperty s c pid b = .ok (s', evs)) :
    s' = verifyPost s pid b ∧ evs = [.PropertyVerified pid c b] ∧
    s.hasRole .surveyor c = true ∧ s.paused = false ∧ s.owners pid ≠ 0 := by
  unfold verifyProperty at h
  split_ifs at h with h1 h2 h3 <;> try exact Except.noConfusion h
  rw [Bool.not_eq_true] at h2
  simp only [Except.ok.injEq, Prod.mk.injEq] at h
  exact ⟨h.1.symm, h.2.symm, h1, h2, h3⟩

theorem verifyProperty_ok_iff {s : State} {c : Address} {pid : Nat} {b : Bool} :
    (∃ r, verifyProperty s c pid b = .ok r) ↔
      (s.hasRole .surveyor c = true ∧ s.paused = false ∧ s.owners pid ≠ 0) := by
  unfold verifyProperty
  split_ifs with h1 h2 h3 <;> simp_all

theorem changePropertyStatus_ok_elim {s : State} {c : Address} {pid : Nat}
    {st : PropertyStatus} {s' : State} {evs : List Event}
    (h : changePropertyStatus s c pid st = .ok (s', evs)) :
    s' = changeStatusPost s pid st ∧
    evs = [.PropertyStatusChanged pid (s.properties pid).status st] ∧
    s.hasRole .admin c = true ∧ s.paused = false ∧ s.owners pid ≠ 0 := by
  unfold changePropertyStatus at h
  split_ifs at h with h1 h2 h3 <;> try exact Except.noConfusion h
  rw [Bool.not_eq_true] at h2
  simp only [Except.ok.injEq, Prod.mk.injEq] at h
  exact ⟨h.1.symm, h.2.symm, h1, h2, h3⟩

theorem changePropertyStatus_ok_iff {s : State} {c : Address} {pid : Nat}
    {st : PropertyStatus} :
    (∃ r, changePropertyStatus s c pid st = .ok r) ↔
      (s.hasRole .admin c = true ∧ s.paused = false ∧ s.owners pid ≠ 0) := by
  unfold changePropertyStatus
  split_ifs with h1 h2 h3 <;> simp_all

theorem updatePropertyValue_ok_elim {s : State} {c : Address} {pid nv : Nat}
    {s' : State} {evs : List Event}
    (h : updatePropertyValue s c pid nv = .ok (s', evs)) :
    s' = updateValuePost s pid nv ∧
    evs = [.PropertyValueUpdated pid (s.properties pid).value nv c] ∧
    s.hasRole .taxAuthority c = true ∧ s.paused = false ∧ s.owners pid ≠ 0 ∧ nv ≠ 0 := by
  unfold updatePropertyValue at h
  split_ifs at h with h1 h2 h3 h4 <;> try exact Except.noConfusion h
  rw [Bool.not_eq_true] at h2
  simp only [Except.ok.injEq, Prod.mk.injEq] at h
  exact ⟨h.1.symm, h.2.symm, h1, h2, h3, h4⟩

theorem updatePropertyValue_ok_iff {s : State} {c : Address} {pid nv : Nat} :
    (∃ r, updatePropertyValue s c pid nv = .ok r) ↔
      (s.hasRole .taxAuthority c = true ∧ s.paused = false ∧ s.owners pid ≠ 0 ∧ nv ≠ 0) := by
  unfold updatePropertyValue
  split_ifs with h1 h2 h3 h4 <;> simp_all

theorem pauseContract_ok_elim {s : State} {c : Address} {s' : State} {evs : List Event}
    (h : pauseContract s c = .ok (s', evs)) :
    s' = { s with paused := true } ∧ evs = [] ∧
    s.hasRole .admin c = true ∧ s.paused = false := by
  unfold pauseContract at h
  split_ifs at h with h1 h2 <;> try exact Except.noConfusion h
  rw [Bool.not_eq_true] at h2
  simp only [Except.ok.injEq, Prod.mk.injEq] at h
  exact ⟨h.1.symm, h.2.symm, h1, h2⟩

theorem unpauseContract_ok_elim {s : State} {c : Address} {s' : State} {evs : List Event}
    (h : unpauseContract s c = .ok (s', evs)) :
    s' = { s with paused := false } ∧ evs = [] ∧
    s.hasRole .admin c = true ∧ s.paused = true := by
  unfold unpauseContract at h
  split_ifs at h with h1 h2 <;> try exact Except.noConfusion h
  simp only [Except.ok.injEq, Prod.mk.injEq] at h
  exact ⟨h.1.symm, h.2.symm, h1, h2⟩

theorem grantRole_ok_elim {s : State} {c : Address} {r : Role} {a : Address}
    {s' : State} {evs : List Event}
    (h : grantRole s c r a = .ok (s', evs)) :
    s' = { s with hasRole := fun r' a' =>
            if r' = r ∧ a' = a then true else s.hasRole r' a' } ∧ evs = [] ∧
    s.hasRole .defaultAdmin c = true := by
  unfold grantRole at h
  split_ifs at h with h1 <;> try exact Except.noConfusion h
  simp only [Except.ok.injEq, Prod.mk.injEq] at h
  exact ⟨h.1.symm, h.2.symm, h1⟩

theorem revokeRole_ok_elim {s : State} {c : Address} {r : Role} {a : Address}
    {s' : State} {evs : List Event}
    (h : revokeRole s c r a = .ok (s', evs)) :
    s' = { s with hasRole := fun r' a' =>
            if r' = r ∧ a' = a then false else s.hasRole r' a' } ∧ evs = [] ∧
    s.hasRole .defaultAdmin c = true := by
  unfold revokeRole at h
  split_ifs at h with h1 <;> try exact Except.noConfusion h
  simp only [Except.ok.injEq, Prod.mk.injEq] at h
  exact ⟨h.1.symm, h.2.symm, h1⟩



theorem runTx_register_ok {s : State} {c o : Address} {loc co : String}
    {a v : Nat} {pt : PropertyType} {dh u : String} {ts : Nat}
    {s' : State} {evs : List Event}
    (h : runTx s (.register c o loc co a v pt dh u ts) = .ok (s', evs)) :
    registerProperty s c o loc co a v pt dh u ts =
      .ok (s.propertyIdCounter + 1, s', evs) := by
  simp only [runTx] at h
  cases hreg : registerProperty s c o loc co a v pt dh u ts with
  | error e => rw [hreg] at h; exact Except.noConfusion h
  | ok r =>
    obtain ⟨pid, s2, evs2⟩ := r
    rw [hreg] at h
    simp only [Except.map] at h
    obtain ⟨hs, hevs⟩ := by simpa using h
    obtain ⟨hpid, -⟩ := registerProperty_ok_elim hreg
    rw [hpid, hs, hevs]


/-- Exhaustive description of one transaction step: either it reverts and
leaves the state unchanged, or it is one of the nine entry points succeeding
with its preconditions satisfied and its post-state. -/
theorem applyTx_shape (s : State) (tx : Tx) :
    applyTx s tx = s ∨
    (∃ c o loc co a v pt dh u ts, tx = .register c o loc co a v pt dh u ts ∧
        s.hasRole .notary c = true ∧ s.paused = false ∧ o ≠ 0 ∧ loc ≠ "" ∧ a ≠ 0 ∧
        s.locationToPropertyId loc = 0 ∧ s.owners (s.propertyIdCounter + 1) = 0 ∧
        applyTx s tx = registerPost s c o loc co a v pt dh u ts) ∨
    (∃ c pid no nv ts, tx = .transfer c pid no nv ts ∧
        s.hasRole .notary c = true ∧ s.paused = false ∧ s.owners pid ≠ 0 ∧ no ≠ 0 ∧
        (s.properties pid).status = .ACTIVE ∧ s.owners pid ≠ no ∧
        applyTx s tx = transferPost s pid no nv ts) ∨
    (∃ pid b, s.owners pid ≠ 0 ∧ applyTx s tx = verifyPost s pid b) ∨
    (∃ pid st, s.owners pid ≠ 0 ∧ applyTx s tx = changeStatusPost s pid st) ∨
    (∃ pid nv, s.owners pid ≠ 0 ∧ nv ≠ 0 ∧ applyTx s tx = updateValuePost s pid nv) ∨
    (applyTx s tx = { s with paused := true }) ∨
    (applyTx s tx = { s with paused := false }) ∨
    (∃ r a, applyTx s tx = { s with hasRole := fun r2 a2 =>
        if r2 = r ∧ a2 = a then true else s.hasRole r2 a2 }) ∨
    (∃ r a, applyTx s tx = { s with hasRole := fun r2 a2 =>
        if r2 = r ∧ a2 = a then false else s.hasRole r2 a2 }) := by
  cases tx with
  | register c o loc co a v pt dh u ts =>
    cases h : runTx s (.register c o loc co a v pt dh u ts) with
    | error e => left; simp [applyTx, h]
    | ok r =>
      obtain ⟨s', evs⟩ := r
      have hreg := runTx_register_ok h
      obtain ⟨-, hpost, -, hc1, hc2, hc3, hc4, hc5, hc6, hc7⟩ :=
        registerProperty_ok_elim hreg
      right; left
      exact ⟨c, o, loc, co, a, v, pt, dh, u, ts, rfl, hc1, hc2, hc3, hc4, hc5, hc6, hc7,
        by simp [applyTx, h, hpost]⟩
  | transfer c pid no nv ts =>
    cases h : runTx s (.transfer c pid no nv ts) with
    | error e => left; simp [applyTx, h]
    | ok r =>
      obtain ⟨s', evs⟩ := r
      obtain ⟨hpost, -, hc1, hc2, hc3, hc4, hc5, hc6⟩ :=
        transferProperty_ok_elim (h : transferProperty s c pid no nv ts = .ok (s', evs))
      right; right; left
      exact ⟨c, pid, no, nv, ts, rfl, hc1, hc2, hc3, hc4, hc5, hc6,
        by simp [applyTx, h, hpost]⟩
  | verify c pid b =>
    cases h : runTx s (.verify c pid b) with
    | error e => left; simp [applyTx, h]
    | ok r =>
      obtain ⟨s', evs⟩ := r
      obtain ⟨hpost, -, -, -, hex⟩ :=
        verifyProperty_ok_elim (h : verifyProperty s c pid b = .ok (s', evs))
      right; right; right; left
      exact ⟨pid, b, hex, by simp [applyTx, h, hpost]⟩
  | changeStatus c pid st =>
    cases h : runTx s (.changeStatus c pid st) with
    | error e => left; simp [applyTx, h]
    | ok r =>
      obtain ⟨s', evs⟩ := r
      obtain ⟨hpost, -, -, -, hex⟩ :=
        changePropertyStatus_ok_elim (h : changePropertyStatus s c pid st = .ok (s', evs))
      right; right; right; right; left
      exact ⟨pid, st, hex, by simp [applyTx, h, hpost]⟩
  | updateValue c pid nv =>
    cases h : runTx s (.updateValue c pid nv) with
    | error e => left; simp [applyTx, h]
    | ok r =>
      obtain ⟨s', evs⟩ := r
      obtain ⟨hpost, -, -, -, hex, hnv⟩ :=
        updatePropertyValue_ok_elim (h : updatePropertyValue s c pid nv = .ok (s', evs))
      right; right; right; right; right; left
      exact ⟨pid, nv, hex, hnv, by simp [applyTx, h, hpost]⟩
  | pauseTx c =>
    cases h : runTx s (.pauseTx c) with
    | error e => left; simp [applyTx, h]
    | ok r =>
      obtain ⟨s', evs⟩ := r
      obtain ⟨hpost, -⟩ := pauseContract_ok_elim (h : pauseContract s c = .ok (s', evs))
      right; right; right; right; right; right; left
      simp [applyTx, h, hpost]
  | unpauseTx c =>
    cases h : runTx s (.unpauseTx c) with
    | error e => left; simp [applyTx, h]
    | ok r =>
      obtain ⟨s', evs⟩ := r
      obtain ⟨hpost, -⟩ := unpauseContract_ok_elim (h : unpauseContract s c = .ok (s', evs))
      right; right; right; right; right; right; right; left
      simp [applyTx, h, hpost]
  | grant c r a =>
    cases h : runTx s (.grant c r a) with
    | error e => left; simp [applyTx, h]
    | ok r2 =>
      obtain ⟨s', evs⟩ := r2
      obtain ⟨hpost, -⟩ := grantRole_ok_elim (h : grantRole s c r a = .ok (s', evs))
      right; right; right; right; right; right; right; right; left
      exact ⟨r, a, by simp [applyTx, h, hpost]⟩
  | revoke c r a =>
    cases h : runTx s (.revoke c r a) with
    | error e => left; simp [applyTx, h]
    | ok r2 =>
      obtain ⟨s', evs⟩ := r2
      obtain ⟨hpost, -⟩ := revokeRole_ok_elim (h : revokeRole s c r a = .ok (s', evs))
      right; right; right; right; right; right; right; right; right
      exact ⟨r, a, by simp [applyTx, h, hpost]⟩


theorem applyTxs_nil (s : State) : applyTxs s [] = s := rfl

theorem applyTxs_cons (s : State) (tx : Tx) (txs : List Tx) :
    applyTxs s (tx :: txs) = applyTxs (applyTx s tx) txs := rfl

/-- EVM atomicity: a reverting transaction leaves the state unchanged. -/
theorem applyTx_eq_of_error {s : State} {tx : Tx} {e : String}
    (h : runTx s tx = .error e) : applyTx s tx = s := by
  simp [applyTx, h]

/-- No transaction can clear a location registration: once
`_locationToPropertyId[L]` is non-zero it stays non-zero. -/
theorem locToId_ne_zero_applyTx {s : State} {L : String}
    (h : s.locationToPropertyId L ≠ 0) (tx : Tx) :
    (applyTx s tx).locationToPropertyId L ≠ 0 := by
  rcases applyTx_shape s tx with heq |
    ⟨c, o, loc, co, a, v, pt, dh, u, ts, -, -, -, -, -, -, -, -, heq⟩ |
    ⟨c, pid, no, nv, ts, -, -, -, -, -, -, -, heq⟩ |
    ⟨pid, b, -, heq⟩ | ⟨pid, st, -, heq⟩ | ⟨pid, nv, -, -, heq⟩ |
    heq | heq | ⟨r, a, heq⟩ | ⟨r, a, heq⟩ <;> rw [heq]
  · exact h
  · simp only [registerPost]
    split <;> simp_all
  · simp only [transferPost, transferMid]; exact h
  · simp only [verifyPost]; exact h
  · simp only [changeStatusPost]; exact h
  · simp only [updateValuePost]; exact h
  · exact h
  · exact h
  · exact h
  · exact h

theorem locToId_ne_zero_applyTxs {s : State} {L : String}
    (h : s.locationToPropertyId L ≠ 0) (txs : List Tx) :
    (applyTxs s txs).locationToPropertyId L ≠ 0 := by
  induction txs generalizing s with
  | nil => exact h
  | cons tx rest ih =>
    rw [applyTxs_cons]
    exact ih (locToId_ne_zero_applyTx h tx)

/-- A `registerProperty` call at an already-registered location can only
revert. -/
theorem registerProperty_error_of_locToId_ne_zero {s : State} {c o : Address}
    {loc co : String} {a v : Nat} {pt : PropertyType} {dh u : String} {ts : Nat}
    (h : s.locationToPropertyId loc ≠ 0) :
    ∃ e, registerProperty s c o loc co a v pt dh u ts = .error e := by
  cases hc : registerProperty s c o loc co a v pt dh u ts with
  | error e => exact ⟨e, rfl⟩
  | ok r =>
    obtain ⟨pid, s2, evs2⟩ := r
    obtain ⟨-, -, -, -, -, -, -, -, hzero, -⟩ := registerProperty_ok_elim hc
    exact absurd hzero h


theorem Inv_initState (d : Address) : Inv (initState d) := by
  refine ⟨fun a => ?_, fun a pid h => ?_, fun pid h => ?_⟩
  · simp [initState]
  · simp [initState] at h
  · simp [initState] at h

theorem Inv_registerPost {s : State} {c o : Address} {loc co : String}
    {a v : Nat} {pt : PropertyType} {dh u : String} {ts : Nat}
    (hInv : Inv s) (ho : o ≠ 0) (hzero : s.owners (s.propertyIdCounter + 1) = 0) :
    Inv (registerPost s c o loc co a v pt dh u ts) := by
  obtain ⟨hnd, hmem, hbound⟩ := hInv
  have hnotin : s.propertyIdCounter + 1 ∉ s.ownerProperties o := by
    intro hc
    have := (hmem o _ hc).2
    rw [hzero] at this
    exact ho this.symm
  refine ⟨fun b => ?_, fun b x hx => ?_, fun x hxo => ?_⟩
  · simp only [registerPost]
    split
    case isTrue hb =>
      subst hb
      simp only [List.nodup_append, List.nodup_cons, List.nodup_nil]
      exact ⟨hnd b, by simp, by simpa [List.disjoint_singleton] using hnotin⟩
    case isFalse hb => exact hnd b
  · simp only [registerPost] at hx ⊢
    split at hx
    case isTrue hb =>
      subst hb
      rcases List.mem_append.1 hx with hx' | hx'
      · have hold := hmem b x hx'
        have hxne : x ≠ s.propertyIdCounter + 1 := by
          intro hc; subst hc; exact hnotin hx'
        exact ⟨hold.1, by simp only [if_neg hxne]; exact hold.2⟩
      · have hx'' : x = s.propertyIdCounter + 1 := by simpa using hx'
        subst hx''
        exact ⟨ho, by simp⟩
    case isFalse hb =>
      have hold := hmem b x hx
      have hxne : x ≠ s.propertyIdCounter + 1 := by
        intro hc; subst hc
        rw [hzero] at hold
        exact hold.1 hold.2.symm
      exact ⟨hold.1, by simp only [if_neg hxne]; exact hold.2⟩
  · simp only [registerPost] at hxo ⊢
    by_cases hx : x = s.propertyIdCounter + 1
    · subst hx; omega
    · rw [if_neg hx] at hxo
      have := hbound x hxo
      omega

theorem Inv_transferPost {s : State} {pid : Nat} {no : Address} {nv ts : Nat}
    (hInv : Inv s) (hex : s.owners pid ≠ 0) (hno : no ≠ 0)
    (hne : s.owners pid ≠ no) :
    Inv (transferPost s pid no nv ts) := by
  obtain ⟨hnd, hmem, hbound⟩ := hInv
  have hnotin_no : pid ∉ s.ownerProperties no := by
    intro hc
    exact hne (hmem no pid hc).2
  refine ⟨fun b => ?_, fun b x hx => ?_, fun x hxo => ?_⟩
  · simp only [transferPost, transferMid]
    split
    case isTrue hb => exact nodup_removePropertyFromOwner (hnd b)
    case isFalse hb =>
      split
      case isTrue hb2 =>
        subst hb2
        simp only [List.nodup_append, List.nodup_cons, List.nodup_nil]
        exact ⟨hnd b, by simp, by simpa [List.disjoint_singleton] using hnotin_no⟩
      case isFalse hb2 => exact hnd b
  · simp only [transferPost, transferMid] at hx ⊢
    split at hx
    case isTrue hb =>
      subst hb
      have hx' := mem_of_mem_removePropertyFromOwner hx
      have hold := hmem _ x hx'
      have hxne : x ≠ pid := by
        intro hc; subst hc
        exact not_mem_removePropertyFromOwner_self (hnd _) hx
      exact ⟨hold.1, by simp only [if_neg hxne]; exact hold.2⟩
    case isFalse hb =>
      split at hx
      case isTrue hb2 =>
        subst hb2
        rcases List.mem_append.1 hx with hx' | hx'
        · have hold := hmem b x hx'
          have hxne : x ≠ pid := by
            intro hc; subst hc; exact hne hold.2
          exact ⟨hold.1, by simp only [if_neg hxne]; exact hold.2⟩
        · have hx'' : x = pid := by simpa using hx'
          subst hx''
          exact ⟨hno, by simp⟩
      case isFalse hb2 =>
        have hold := hmem b x hx
        have hxne : x ≠ pid := by
          intro hc; subst hc; exact hb hold.2.symm
        exact ⟨hold.1, by simp only [if_neg hxne]; exact hold.2⟩
  · simp only [transferPost, transferMid] at hxo ⊢
    by_cases hx : x = pid
    · subst hx
      exact hbound x hex
    · rw [if_neg hx] at hxo
      exact hbound x hxo

/-- Every transaction preserves the contract invariant. -/
theorem Inv_applyTx {s : State} (hInv : Inv s) (tx : Tx) : Inv (applyTx s tx) := by
  rcases applyTx_shape s tx with heq |
    ⟨c, o, loc, co, a, v, pt, dh, u, ts, -, -, -, ho, -, -, -, hzero, heq⟩ |
    ⟨c, pid, no, nv, ts, -, -, -, hex, hno, -, hne, heq⟩ |
    ⟨pid, b, -, heq⟩ | ⟨pid, st, -, heq⟩ | ⟨pid, nv, -, -, heq⟩ |
    heq | heq | ⟨r, a, heq⟩ | ⟨r, a, heq⟩ <;> rw [heq]
  · exact hInv
  · exact Inv_registerPost hInv ho hzero
  · exact Inv_transferPost hInv hex hno hne
  · exact hInv
  · exact hInv
  · exact hInv
  · exact hInv
  · exact hInv
  · exact hInv
  · exact hInv

theorem Inv_applyTxs {s : State} (hInv : Inv s) (txs : List Tx) :
    Inv (applyTxs s txs) := by
  induction txs generalizing s with
  | nil => exact hInv
  | cons tx rest ih => exact ih (Inv_applyTx hInv tx)

/-- Every reachable state satisfies the invariant. -/
theorem Inv_of_reachable {s : State} (h : Reachable s) : Inv s := by
  obtain ⟨d, txs, rfl⟩ := h
  exact Inv_applyTxs (Inv_initState d) txs


theorem isOk_of_ok {α : Type} {x : Except String α} {r : α} (h : x = .ok r) :
    x.isOk = true := by
  rw [h]; rfl

theorem isOk_of_error {α : Type} {x : Except String α} {e : String} (h : x = .error e) :
    x.isOk = false := by
  rw [h]; rfl

theorem exists_error_of_not_ok {α : Type} {x : Except String α}
    (h : ∀ r, x ≠ .ok r) : ∃ e, x = .error e := by
  cases x with
  | error e => exact ⟨e, rfl⟩
  | ok r => exact absurd rfl (h r)

theorem applyTx_counter_register {s : State} {c o : Address} {loc co : String}
    {a v : Nat} {pt : PropertyType} {dh u : String} {ts : Nat} :
    (applyTx s (.register c o loc co a v pt dh u ts)).propertyIdCounter =
      s.propertyIdCounter +
        (if (runTx s (.register c o loc co a v pt dh u ts)).isOk then 1 else 0) := by
  cases h : runTx s (.register c o loc co a v pt dh u ts) with
  | error e => rw [applyTx_eq_of_error h]; simp [Except.isOk, Except.toBool]
  | ok r =>
    obtain ⟨s', evs⟩ := r
    have hreg := runTx_register_ok h
    obtain ⟨-, hpost, -⟩ := registerProperty_ok_elim hreg
    simp [applyTx, h, hpost, registerPost, Except.isOk, Except.toBool]

theorem applyTx_counter_other {s : State} {tx : Tx}
    (hne : ∀ c o loc co a v pt dh u ts, tx ≠ .register c o loc co a v pt dh u ts) :
    (applyTx s tx).propertyIdCounter = s.propertyIdCounter := by
  rcases applyTx_shape s tx with heq |
    ⟨c, o, loc, co, a, v, pt, dh, u, ts, htx, -⟩ |
    ⟨c, pid, no, nv, ts, -, -, -, -, -, -, -, heq⟩ |
    ⟨pid, b, -, heq⟩ | ⟨pid, st, -, heq⟩ | ⟨pid, nv, -, -, heq⟩ |
    heq | heq | ⟨r, a, heq⟩ | ⟨r, a, heq⟩
  · rw [heq]
  · exact absurd htx (hne c o loc co a v pt dh u ts)
  · rw [heq]; rfl
  · rw [heq]; rfl
  · rw [heq]; rfl
  · rw [heq]; rfl
  · rw [heq]
  · rw [heq]
  · rw [heq]
  · rw [heq]

/-- `getTotalProperties` counts exactly the successful registrations. -/
theorem applyTxs_counter (s : State) (txs : List Tx) :
    (applyTxs s txs).propertyIdCounter =
      s.propertyIdCounter + successfulRegisterCount s txs := by
  induction txs generalizing s with
  | nil => rfl
  | cons tx rest ih =>
    rw [applyTxs_cons, ih]
    cases tx with
    | register c o loc co a v pt dh u ts =>
      rw [applyTx_counter_register]
      simp only [successfulRegisterCount]
      omega
    | transfer c pid no nv ts =>
      rw [applyTx_counter_other (by intro _ _ _ _ _ _ _ _ _ _ h; exact Tx.noConfusion h)]
      simp only [successfulRegisterCount]
      omega
    | verify c pid b =>
      rw [applyTx_counter_other (by intro _ _ _ _ _ _ _ _ _ _ h; exact Tx.noConfusion h)]
      simp only [successfulRegisterCount]
      omega
    | changeStatus c pid st =>
      rw [applyTx_counter_other (by intro _ _ _ _ _ _ _ _ _ _ h; exact Tx.noConfusion h)]
      simp only [successfulRegisterCount]
      omega
    | updateValue c pid nv =>
      rw [applyTx_counter_other (by intro _ _ _ _ _ _ _ _ _ _ h; exact Tx.noConfusion h)]
      simp only [successfulRegisterCount]
      omega
    | pauseTx c =>
      rw [applyTx_counter_other (by intro _ _ _ _ _ _ _ _ _ _ h; exact Tx.noConfusion h)]
      simp only [successfulRegisterCount]
      omega
    | unpauseTx c =>
      rw [applyTx_counter_other (by intro _ _ _ _ _ _ _ _ _ _ h; exact Tx.noConfusion h)]
      simp only [successfulRegisterCount]
      omega
    | grant c r a =>
      rw [applyTx_counter_other (by intro _ _ _ _ _ _ _ _ _ _ h; exact Tx.noConfusion h)]
      simp only [successfulRegisterCount]
      omega
    | revoke c r a =>
      rw [applyTx_counter_other (by intro _ _ _ _ _ _ _ _ _ _ h; exact Tx.noConfusion h)]
      simp only [successfulRegisterCount]
      omega

theorem locToId_applyTx_of_not_register {s : State} {tx : Tx} {L : String}
    (hne : ∀ c o loc co a v pt dh u ts, tx ≠ .register c o loc co a v pt dh u ts) :
    (applyTx s tx).locationToPropertyId L = s.locationToPropertyId L := by
  rcases applyTx_shape s tx with heq |
    ⟨c, o, loc, co, a, v, pt, dh, u, ts, htx, -⟩ |
    ⟨c, pid, no, nv, ts, -, -, -, -, -, -, -, heq⟩ |
    ⟨pid, b, -, heq⟩ | ⟨pid, st, -, heq⟩ | ⟨pid, nv, -, -, heq⟩ |
    heq | heq | ⟨r, a, heq⟩ | ⟨r, a, heq⟩
  · rw [heq]
  · exact absurd htx (hne c o loc co a v pt dh u ts)
  · rw [heq]; rfl
  · rw [heq]; rfl
  · rw [heq]; rfl
  · rw [heq]; rfl
  · rw [heq]
  · rw [heq]
  · rw [heq]
  · rw [heq]

/-- Starting from a state where `L` is unregistered, the final
`_locationToPropertyId[L]` is zero exactly when no successful registration
at `L` occurred along the trace. -/
theorem locToId_applyTxs_zero_iff {s : State} {L : String}
    (h : s.locationToPropertyId L = 0) (txs : List Tx) :
    ((applyTxs s txs).locationToPropertyId L = 0 ↔ registeredAt L s txs = false) := by
  induction txs generalizing s with
  | nil => simp [applyTxs, registeredAt, h]
  | cons tx rest ih =>
    rw [applyTxs_cons]
    cases tx with
    | register c o loc co a v pt dh u ts =>
      cases hok : runTx s (.register c o loc co a v pt dh u ts) with
      | error e =>
        simp only [registeredAt, applyTx_eq_of_error hok, isOk_of_error hok,
          Bool.false_and, Bool.false_or]
        exact ih h
      | ok r =>
        obtain ⟨s', evs⟩ := r
        have hreg := runTx_register_ok hok
        obtain ⟨-, hpost, -⟩ := registerProperty_ok_elim hreg
        have happ : applyTx s (.register c o loc co a v pt dh u ts) =
            registerPost s c o loc co a v pt dh u ts := by
          simp [applyTx, hok, hpost]
        by_cases hL : loc = L
        · subst hL
          have hnz : (registerPost s c o loc co a v pt dh u ts).locationToPropertyId loc ≠ 0 := by
            simp [registerPost]
          have hfin := locToId_ne_zero_applyTxs hnz rest
          simp only [registeredAt, happ, isOk_of_ok hok, Bool.true_and, beq_self_eq_true,
            Bool.true_or]
          constructor
          · intro hc; exact absurd hc hfin
          · intro hc; exact Bool.noConfusion hc
        · have hz : (registerPost s c o loc co a v pt dh u ts).locationToPropertyId L = 0 := by
            simp only [registerPost]
            rw [if_neg (fun hc => hL hc.symm)]
            exact h
          have hbeq : (loc == L) = false := by
            rw [beq_eq_false_iff_ne]; exact hL
          simp only [registeredAt, happ, isOk_of_ok hok, Bool.true_and, hbeq, Bool.false_or]
          exact ih hz
    | transfer c pid no nv ts =>
      simp only [registeredAt, Bool.false_or]
      exact ih ((locToId_applyTx_of_not_register
        (by intro _ _ _ _ _ _ _ _ _ _ hc; exact Tx.noConfusion hc)).trans h)
    | verify c pid b =>
      simp only [registeredAt, Bool.false_or]
      exact ih ((locToId_applyTx_of_not_register
        (by intro _ _ _ _ _ _ _ _ _ _ hc; exact Tx.noConfusion hc)).trans h)
    | changeStatus c pid st =>
      simp only [registeredAt, Bool.false_or]
      exact ih ((locToId_applyTx_of_not_register
        (by intro _ _ _ _ _ _ _ _ _ _ hc; exact Tx.noConfusion hc)).trans h)
    | updateValue c pid nv =>
      simp only [registeredAt, Bool.false_or]
      exact ih ((locToId_applyTx_of_not_register
        (by intro _ _ _ _ _ _ _ _ _ _ hc; exact Tx.noConfusion hc)).trans h)
    | pauseTx c =>
      simp only [registeredAt, Bool.false_or]
      exact ih ((locToId_applyTx_of_not_register
        (by intro _ _ _ _ _ _ _ _ _ _ hc; exact Tx.noConfusion hc)).trans h)
    | unpauseTx c =>
      simp only [registeredAt, Bool.false_or]
      exact ih ((locToId_applyTx_of_not_register
        (by intro _ _ _ _ _ _ _ _ _ _ hc; exact Tx.noConfusion hc)).trans h)
    | grant c r a =>
      simp only [registeredAt, Bool.false_or]
      exact ih ((locToId_applyTx_of_not_register
        (by intro _ _ _ _ _ _ _ _ _ _ hc; exact Tx.noConfusion hc)).trans h)
    | revoke c r a =>
      simp only [registeredAt, Bool.false_or]
      exact ih ((locToId_applyTx_of_not_register
        (by intro _ _ _ _ _ _ _ _ _ _ hc; exact Tx.noConfusion hc)).trans h)


/-! ## Claims -/

/-- C1: at most one property id is registered per distinct location string:
after `registerProperty` succeeds for a location, any later
`registerProperty` call with the same location string reverts, whatever
transactions happen in between — the registration-time uniqueness check
(`_locationToPropertyId[location] == 0`) can never pass again. -/
theorem claim_C1_location_unique {s : State} {c o : Address} {loc co : String}
    {a v : Nat} {pt : PropertyType} {dh u : String} {ts : Nat}
    {pid : Nat} {s1 : State} {evs : List Event}
    (h : registerProperty s c o loc co a v pt dh u ts = .ok (pid, s1, evs))
    (txs : List Tx) (c2 o2 : Address) (co2 : String) (a2 v2 : Nat)
    (pt2 : PropertyType) (dh2 u2 : String) (ts2 : Nat) :
    ∃ e, registerProperty (applyTxs s1 txs) c2 o2 loc co2 a2 v2 pt2 dh2 u2 ts2 =
      .error e := by
  obtain ⟨-, hpost, -⟩ := registerProperty_ok_elim h
  have h1 : s1.locationToPropertyId loc ≠ 0 := by
    rw [hpost]; simp [registerPost]
  exact registerProperty_error_of_locToId_ne_zero (locToId_ne_zero_applyTxs h1 txs)

theorem claim_C1_witness :
    ∃ e, registerProperty
      (applyTxs (registerPost wBase 2 3 "Ouaga parcel 12" "12.37,-1.52" 400 9000
        .RESIDENTIAL "QmHash" "ipfs://uri" 100) [])
      2 4 "Ouaga parcel 12" "c2" 10 20 .OTHER "h2" "u2" 200 = .error e :=
  claim_C1_location_unique
    (show registerProperty wBase 2 3 "Ouaga parcel 12" "12.37,-1.52" 400 9000
        .RESIDENTIAL "QmHash" "ipfs://uri" 100 =
      .ok (1, registerPost wBase 2 3 "Ouaga parcel 12" "12.37,-1.52" 400 9000
        .RESIDENTIAL "QmHash" "ipfs://uri" 100,
        [.PropertyRegistered 1 3 "Ouaga parcel 12" 9000 2]) from rfl)
    [] 2 4 "c2" 10 20 .OTHER "h2" "u2" 200


/-- C2: a successful `transferProperty` reassigns `ownerOf` to the new
owner, removes the id from the previous owner's index list and appends it to
the new owner's, stores the new value and the call timestamp, passes through
status `TRANSFERRED` in the intermediate state and ends with status
`ACTIVE`; all of this happens in the one call. -/
theorem claim_C2_transfer_updates {s : State} {c : Address} {pid : Nat}
    {no : Address} {nv ts : Nat} {s2 : State} {evs : List Event}
    (hs : Reachable s)
    (h : transferProperty s c pid no nv ts = .ok (s2, evs)) :
    s2.owners pid = no ∧
    pid ∉ getPropertiesByOwner s2 (s.owners pid) ∧
    pid ∈ getPropertiesByOwner s2 no ∧
    (s2.properties pid).value = nv ∧
    (s2.properties pid).lastTransferDate = ts ∧
    (s2.properties pid).status = .ACTIVE ∧
    ((transferMid s pid nv ts).properties pid).status = .TRANSFERRED := by
  obtain ⟨hnd, hmem, -⟩ := Inv_of_reachable hs
  obtain ⟨hpost, -, -, -, hex, hno, -, hne⟩ := transferProperty_ok_elim h
  subst hpost
  refine ⟨?_, ?_, ?_, ?_, ?_, ?_, ?_⟩
  · simp [transferPost]
  · simp only [getPropertiesByOwner, transferPost, transferMid, if_pos rfl]
    exact not_mem_removePropertyFromOwner_self (hnd _)
  · simp only [getPropertiesByOwner, transferPost, transferMid]
    rw [if_neg (fun hc => hne hc.symm)]
    simp
  · simp [transferPost, transferMid]
  · simp [transferPost, transferMid]
  · simp [transferPost]
  · simp [transferMid]

theorem claim_C2_witness :
    (transferPost wReg1 1 4 7000 200).owners 1 = 4 ∧
    1 ∉ getPropertiesByOwner (transferPost wReg1 1 4 7000 200) (wReg1.owners 1) ∧
    1 ∈ getPropertiesByOwner (transferPost wReg1 1 4 7000 200) 4 ∧
    ((transferPost wReg1 1 4 7000 200).properties 1).value = 7000 ∧
    ((transferPost wReg1 1 4 7000 200).properties 1).lastTransferDate = 200 ∧
    ((transferPost wReg1 1 4 7000 200).properties 1).status = .ACTIVE ∧
    ((transferMid wReg1 1 7000 200).properties 1).status = .TRANSFERRED :=
  claim_C2_transfer_updates ⟨1, wGrants ++ [wReg], rfl⟩
    (show transferProperty wReg1 2 1 4 7000 200 =
      .ok (transferPost wReg1 1 4 7000 200,
           [.PropertyTransferred 1 3 4 7000]) from rfl)

/-- C3: a successful `registerProperty` mints the fresh id
`counter + 1` (unminted beforehand) to `owner`, stores the full attribute
struct (status `ACTIVE`, `verified` false, `registrar` the calling notary,
both dates set to the call timestamp) retrievable through `getProperty`,
emits `PropertyRegistered`, returns the new id, and appends it to the
owner's `getPropertiesByOwner` list. -/
theorem claim_C3_register_effects {s : State} {c o : Address} {loc co : String}
    {a v : Nat} {pt : PropertyType} {dh u : String} {ts : Nat}
    {pid : Nat} {s1 : State} {evs : List Event}
    (h : registerProperty s c o loc co a v pt dh u ts = .ok (pid, s1, evs)) :
    pid = s.propertyIdCounter + 1 ∧
    s.owners pid = 0 ∧
    s1.owners pid = o ∧
    getProperty s1 pid = .ok
      { id := pid, location := loc, coordinates := co, area := a, value := v,
        propertyType := pt, status := .ACTIVE, registrationDate := ts,
        lastTransferDate := ts, documentHash := dh, registrar := c,
        verified := false } ∧
    evs = [.PropertyRegistered pid o loc v c] ∧
    pid ∈ getPropertiesByOwner s1 o := by
  obtain ⟨hpid, hpost, hevs, -, -, ho, -, -, -, hzero⟩ := registerProperty_ok_elim h
  subst hpid
  subst hpost
  refine ⟨rfl, hzero, ?_, ?_, hevs, ?_⟩
  · simp [registerPost]
  · unfold getProperty
    rw [if_neg (by simp [registerPost, ho])]
    simp [registerPost]
  · simp [getPropertiesByOwner, registerPost]

theorem claim_C3_witness :
    1 = wBase.propertyIdCounter + 1 ∧
    wBase.owners 1 = 0 ∧
    (registerPost wBase 2 3 "Ouaga parcel 12" "12.37,-1.52" 400 9000
      .RESIDENTIAL "QmHash" "ipfs://uri" 100).owners 1 = 3 ∧
    getProperty (registerPost wBase 2 3 "Ouaga parcel 12" "12.37,-1.52" 400 9000
      .RESIDENTIAL "QmHash" "ipfs://uri" 100) 1 = .ok
      { id := 1, location := "Ouaga parcel 12", coordinates := "12.37,-1.52",
        area := 400, value := 9000, propertyType := .RESIDENTIAL,
        status := .ACTIVE, registrationDate := 100, lastTransferDate := 100,
        documentHash := "QmHash", registrar := 2, verified := false } ∧
    [Event.PropertyRegistered 1 3 "Ouaga parcel 12" 9000 2] =
      [Event.PropertyRegistered 1 3 "Ouaga parcel 12" 9000 2] ∧
    1 ∈ getPropertiesByOwner (registerPost wBase 2 3 "Ouaga parcel 12"
      "12.37,-1.52" 400 9000 .RESIDENTIAL "QmHash" "ipfs://uri" 100) 3 :=
  claim_C3_register_effects
    (show registerProperty wBase 2 3 "Ouaga parcel 12" "12.37,-1.52" 400 9000
        .RESIDENTIAL "QmHash" "ipfs://uri" 100 =
      .ok (1, registerPost wBase 2 3 "Ouaga parcel 12" "12.37,-1.52" 400 9000
        .RESIDENTIAL "QmHash" "ipfs://uri" 100,
        [.PropertyRegistered 1 3 "Ouaga parcel 12" 9000 2]) from rfl)


/-- C4: each mutating entry point is gated by its role
(`registerProperty`/`transferProperty`: notary; `verifyProperty`: surveyor;
`updatePropertyValue`: tax authority; `changePropertyStatus`: admin): a call
can succeed only when the caller holds the role, and a caller without the
role always reverts. -/
theorem claim_C4_role_gating (s : State) (c o : Address) (loc co : String)
    (a v : Nat) (pt : PropertyType) (dh u : String) (ts pid nv : Nat)
    (no : Address) (b : Bool) (st : PropertyStatus) :
    ((∃ r, registerProperty s c o loc co a v pt dh u ts = .ok r) →
        s.hasRole .notary c = true) ∧
    (s.hasRole .notary c = false →
        ∃ e, registerProperty s c o loc co a v pt dh u ts = .error e) ∧
    ((∃ r, transferProperty s c pid no nv ts = .ok r) →
        s.hasRole .notary c = true) ∧
    (s.hasRole .notary c = false →
        ∃ e, transferProperty s c pid no nv ts = .error e) ∧
    ((∃ r, verifyProperty s c pid b = .ok r) → s.hasRole .surveyor c = true) ∧
    (s.hasRole .surveyor c = false → ∃ e, verifyProperty s c pid b = .error e) ∧
    ((∃ r, updatePropertyValue s c pid nv = .ok r) →
        s.hasRole .taxAuthority c = true) ∧
    (s.hasRole .taxAuthority c = false →
        ∃ e, updatePropertyValue s c pid nv = .error e) ∧
    ((∃ r, changePropertyStatus s c pid st = .ok r) →
        s.hasRole .admin c = true) ∧
    (s.hasRole .admin c = false →
        ∃ e, changePropertyStatus s c pid st = .error e) := by
  refine ⟨fun h => (registerProperty_ok_iff.1 h).1,
          fun hneg => ⟨"AccessControl: account is missing role", ?_⟩,
          fun h => (transferProperty_ok_iff.1 h).1,
          fun hneg => ⟨"AccessControl: account is missing role", ?_⟩,
          fun h => (verifyProperty_ok_iff.1 h).1,
          fun hneg => ⟨"AccessControl: account is missing role", ?_⟩,
          fun h => (updatePropertyValue_ok_iff.1 h).1,
          fun hneg => ⟨"AccessControl: account is missing role", ?_⟩,
          fun h => (changePropertyStatus_ok_iff.1 h).1,
          fun hneg => ⟨"AccessControl: account is missing role", ?_⟩⟩
  · simp [registerProperty, hneg]
  · simp [transferProperty, hneg]
  · simp [verifyProperty, hneg]
  · simp [updatePropertyValue, hneg]
  · simp [changePropertyStatus, hneg]

theorem claim_C4_witness :
    wBase.hasRole .notary 2 = true ∧
    (∃ e, registerProperty wBase 9 3 "L" "c" 1 1 .OTHER "h" "u" 5 = .error e) ∧
    (∃ e, transferProperty wBase 9 1 4 5 6 = .error e) ∧
    wReg1.hasRole .surveyor 5 = true ∧
    (∃ e, verifyProperty wBase 9 1 true = .error e) ∧
    wReg1.hasRole .taxAuthority 6 = true ∧
    (∃ e, updatePropertyValue wBase 9 1 5 = .error e) ∧
    wReg1.hasRole .admin 1 = true ∧
    (∃ e, changePropertyStatus wBase 9 1 .FROZEN = .error e) := by
  refine ⟨(claim_C4_role_gating wBase 2 3 "Ouaga parcel 12" "12.37,-1.52" 400 9000
      .RESIDENTIAL "QmHash" "ipfs://uri" 100 1 1 4 true .ACTIVE).1 ⟨_, rfl⟩,
    (claim_C4_role_gating wBase 9 3 "L" "c" 1 1 .OTHER "h" "u" 5 1 1 4 true .ACTIVE).2.1 rfl,
    (claim_C4_role_gating wBase 9 3 "L" "c" 1 1 .OTHER "h" "u" 6 1 5 4 true .ACTIVE).2.2.2.1 rfl,
    (claim_C4_role_gating wReg1 5 3 "L" "c" 1 1 .OTHER "h" "u" 6 1 5 4 true
      .ACTIVE).2.2.2.2.1 ⟨_, rfl⟩,
    (claim_C4_role_gating wBase 9 3 "L" "c" 1 1 .OTHER "h" "u" 6 1 5 4 true
      .ACTIVE).2.2.2.2.2.1 rfl,
    (claim_C4_role_gating wReg1 6 3 "L" "c" 1 1 .OTHER "h" "u" 6 1 500 4 true
      .ACTIVE).2.2.2.2.2.2.1 ⟨_, rfl⟩,
    (claim_C4_role_gating wBase 9 3 "L" "c" 1 1 .OTHER "h" "u" 6 1 5 4 true
      .ACTIVE).2.2.2.2.2.2.2.1 rfl,
    (claim_C4_role_gating wReg1 1 3 "L" "c" 1 1 .OTHER "h" "u" 6 1 500 4 true
      .DISPUTED).2.2.2.2.2.2.2.2.1 ⟨_, rfl⟩,
    (claim_C4_role_gating wBase 9 3 "L" "c" 1 1 .OTHER "h" "u" 6 1 5 4 true
      .FROZEN).2.2.2.2.2.2.2.2.2 rfl⟩

/-- C5: EVM atomicity of every mutating entry point: whenever a transaction
reverts (for any reason — role check, pause, nonexistent id, invalid
argument, duplicate location), the contract state after the transaction is
exactly the state before it. -/
theorem claim_C5_atomic_revert (s : State) (tx : Tx) (e : String)
    (h : runTx s tx = .error e) : applyTx s tx = s :=
  applyTx_eq_of_error h

theorem claim_C5_witness :
    applyTx (initState 1) (.register 9 3 "L" "c" 1 1 .OTHER "h" "u" 5) =
      initState 1 :=
  claim_C5_atomic_revert (initState 1) (.register 9 3 "L" "c" 1 1 .OTHER "h" "u" 5)
    "AccessControl: account is missing role" rfl


/-- C6: while the contract is paused every mutating entry point reverts;
after a successful `unpause` the pause flag is cleared and each entry point
succeeds exactly under its usual (pause-free) preconditions. -/
theorem claim_C6_pause_blocks (s : State) (hp : s.paused = true) :
    (∀ c o loc co a v pt dh u ts,
        ∃ e, registerProperty s c o loc co a v pt dh u ts = .error e) ∧
    (∀ c pid no nv ts, ∃ e, transferProperty s c pid no nv ts = .error e) ∧
    (∀ c pid b, ∃ e, verifyProperty s c pid b = .error e) ∧
    (∀ c pid nv, ∃ e, updatePropertyValue s c pid nv = .error e) ∧
    (∀ c pid st, ∃ e, changePropertyStatus s c pid st = .error e) ∧
    (∀ c s2 evs, unpauseContract s c = .ok (s2, evs) →
      s2.paused = false ∧
      (∀ c2 o loc co a v pt dh u ts,
        (∃ r, registerProperty s2 c2 o loc co a v pt dh u ts = .ok r) ↔
          (s2.hasRole .notary c2 = true ∧ o ≠ 0 ∧ loc ≠ "" ∧ a ≠ 0 ∧
           s2.locationToPropertyId loc = 0 ∧
           s2.owners (s2.propertyIdCounter + 1) = 0)) ∧
      (∀ c2 pid no nv ts,
        (∃ r, transferProperty s2 c2 pid no nv ts = .ok r) ↔
          (s2.hasRole .notary c2 = true ∧ s2.owners pid ≠ 0 ∧ no ≠ 0 ∧
           (s2.properties pid).status = .ACTIVE ∧ s2.owners pid ≠ no)) ∧
      (∀ c2 pid b,
        (∃ r, verifyProperty s2 c2 pid b = .ok r) ↔
          (s2.hasRole .surveyor c2 = true ∧ s2.owners pid ≠ 0)) ∧
      (∀ c2 pid nv,
        (∃ r, updatePropertyValue s2 c2 pid nv = .ok r) ↔
          (s2.hasRole .taxAuthority c2 = true ∧ s2.owners pid ≠ 0 ∧ nv ≠ 0)) ∧
      (∀ c2 pid st,
        (∃ r, changePropertyStatus s2 c2 pid st = .ok r) ↔
          (s2.hasRole .admin c2 = true ∧ s2.owners pid ≠ 0))) := by
  refine ⟨?_, ?_, ?_, ?_, ?_, ?_⟩
  · intro c o loc co a v pt dh u ts
    unfold registerProperty
    split_ifs <;> simp_all
  · intro c pid no nv ts
    unfold transferProperty
    split_ifs <;> simp_all
  · intro c pid b
    unfold verifyProperty
    split_ifs <;> simp_all
  · intro c pid nv
    unfold updatePropertyValue
    split_ifs <;> simp_all
  · intro c pid st
    unfold changePropertyStatus
    split_ifs <;> simp_all
  · intro c s2 evs h
    obtain ⟨hpost, -, -, -⟩ := unpauseContract_ok_elim h
    have h2 : s2.paused = false := by rw [hpost]
    refine ⟨h2, ?_, ?_, ?_, ?_, ?_⟩
    · intro c2 o loc co a v pt dh u ts
      rw [registerProperty_ok_iff]
      simp [h2]
    · intro c2 pid no nv ts
      rw [transferProperty_ok_iff]
      simp [h2]
    · intro c2 pid b
      rw [verifyProperty_ok_iff]
      simp [h2]
    · intro c2 pid nv
      rw [updatePropertyValue_ok_iff]
      simp [h2]
    · intro c2 pid st
      rw [changePropertyStatus_ok_iff]
      simp [h2]

theorem claim_C6_witness :
    (∃ e, registerProperty wPaused 2 4 "Ouaga parcel 13" "c" 1 1 .OTHER "h" "u" 5 =
      .error e) ∧
    (∃ r, registerProperty { wPaused with paused := false } 2 4 "Ouaga parcel 13"
      "c" 1 1 .OTHER "h" "u" 5 = .ok r) := by
  have T := claim_C6_pause_blocks wPaused rfl
  refine ⟨T.1 2 4 "Ouaga parcel 13" "c" 1 1 .OTHER "h" "u" 5, ?_⟩
  have B := T.2.2.2.2.2 1 { wPaused with paused := false } []
    (show unpauseContract wPaused 1 = .ok ({ wPaused with paused := false }, [])
      from rfl)
  exact (B.2.1 2 4 "Ouaga parcel 13" "c" 1 1 .OTHER "h" "u" 5).2
    ⟨rfl, by decide, by decide, by decide, rfl, rfl⟩

/-- C7: `transferProperty` reverts on self-transfer and on any non-`ACTIVE`
status (and on nonexistent ids); it can succeed only for an existing,
`ACTIVE` property going to a different, non-zero owner. -/
theorem claim_C7_transfer_guards (s : State) (c : Address) (pid : Nat)
    (no : Address) (nv ts : Nat) :
    ((s.owners pid ≠ 0 ∧ s.owners pid = no) →
        ∃ e, transferProperty s c pid no nv ts = .error e) ∧
    ((s.owners pid ≠ 0 ∧ (s.properties pid).status ≠ .ACTIVE) →
        ∃ e, transferProperty s c pid no nv ts = .error e) ∧
    (s.owners pid = 0 → ∃ e, transferProperty s c pid no nv ts = .error e) ∧
    ((∃ r, transferProperty s c pid no nv ts = .ok r) →
        (s.owners pid ≠ 0 ∧ (s.properties pid).status = .ACTIVE ∧ no ≠ 0 ∧
         no ≠ s.owners pid)) := by
  refine ⟨?_, ?_, ?_, ?_⟩
  · rintro ⟨hex, hself⟩
    apply exists_error_of_not_ok
    intro r hr
    obtain ⟨-, -, -, -, -, hne⟩ := transferProperty_ok_iff.1 ⟨r, hr⟩
    exact hne hself
  · rintro ⟨hex, hst⟩
    apply exists_error_of_not_ok
    intro r hr
    obtain ⟨-, -, -, -, hact, -⟩ := transferProperty_ok_iff.1 ⟨r, hr⟩
    exact hst hact
  · intro hnoex
    apply exists_error_of_not_ok
    intro r hr
    obtain ⟨-, -, hex, -⟩ := transferProperty_ok_iff.1 ⟨r, hr⟩
    exact hex hnoex
  · intro h
    obtain ⟨-, -, hex, hno, hact, hne⟩ := transferProperty_ok_iff.1 h
    exact ⟨hex, hact, hno, fun hc => hne hc.symm⟩

theorem claim_C7_witness :
    (∃ e, transferProperty wReg1 2 1 3 5000 300 = .error e) ∧
    (∃ e, transferProperty wDisputed 2 1 4 5000 300 = .error e) ∧
    (∃ e, transferProperty wReg1 2 99 4 5000 300 = .error e) ∧
    (wReg1.owners 1 ≠ 0 ∧ (wReg1.properties 1).status = .ACTIVE ∧
      (4 : Address) ≠ 0 ∧ (4 : Address) ≠ wReg1.owners 1) := by
  refine ⟨(claim_C7_transfer_guards wReg1 2 1 3 5000 300).1 ⟨by decide, rfl⟩,
    (claim_C7_transfer_guards wDisputed 2 1 4 5000 300).2.1 ⟨by decide, by decide⟩,
    (claim_C7_transfer_guards wReg1 2 99 4 5000 300).2.2.1 rfl,
    (claim_C7_transfer_guards wReg1 2 1 4 5000 300).2.2.2 ⟨_, rfl⟩⟩


theorem verifyPost_idem (s : State) (pid : Nat) (b : Bool) :
    verifyPost (verifyPost s pid b) pid b = verifyPost s pid b := by
  unfold verifyPost
  ext1 <;> try rfl
  all_goals
    funext t
    by_cases ht : t = pid <;> simp [ht]

/-- C8: `verifyProperty` is idempotent: if `verifyProperty(id, b)` succeeds
producing state `s1`, then calling it again with the same flag succeeds and
returns `s1` itself — the second call changes nothing. -/
theorem claim_C8_verify_idempotent {s : State} {c : Address} {pid : Nat}
    {b : Bool} {s1 : State} {evs : List Event}
    (h : verifyProperty s c pid b = .ok (s1, evs)) :
    verifyProperty s1 c pid b = .ok (s1, [.PropertyVerified pid c b]) := by
  obtain ⟨hpost, -, hrole, hpause, hex⟩ := verifyProperty_ok_elim h
  subst hpost
  have hrole1 : (verifyPost s pid b).hasRole .surveyor c = true := hrole
  have hpause1 : (verifyPost s pid b).paused = false := hpause
  have hex1 : (verifyPost s pid b).owners pid ≠ 0 := hex
  unfold verifyProperty
  rw [if_neg (by simp [hrole1]), if_neg (by simp [hpause1]), if_neg (by simp [hex1])]
  rw [verifyPost_idem]

theorem claim_C8_witness :
    verifyProperty (verifyPost wReg1 1 true) 5 1 true =
      .ok (verifyPost wReg1 1 true, [.PropertyVerified 1 5 true]) :=
  claim_C8_verify_idempotent
    (show verifyProperty wReg1 5 1 true =
      .ok (verifyPost wReg1 1 true, [.PropertyVerified 1 5 true]) from rfl)

/-- C10: property ids are consecutive from 1 (`0` is never minted, the
counter is incremented before use, and a successful registration returns
`counter + 1`); `getTotalProperties` equals the number of successful
registrations of the trace; and `getPropertyIdByLocation` returns `0`
exactly at locations never successfully registered, so the `0` sentinel
cannot collide with a real id. -/
theorem claim_C10_id_discipline (d : Address) (txs : List Tx) :
    getTotalProperties (applyTxs (initState d) txs) =
      successfulRegisterCount (initState d) txs ∧
    (∀ L, getPropertyIdByLocation (applyTxs (initState d) txs) L = 0 ↔
        registeredAt L (initState d) txs = false) ∧
    (∀ pid, (applyTxs (initState d) txs).owners pid ≠ 0 →
        1 ≤ pid ∧ pid ≤ getTotalProperties (applyTxs (initState d) txs)) ∧
    (∀ s c o loc co a v pt dh u ts pid s1 evs,
        registerProperty s c o loc co a v pt dh u ts = .ok (pid, s1, evs) →
        pid = s.propertyIdCounter + 1) := by
  refine ⟨?_, fun L => ?_, fun pid h => ?_,
    fun s c o loc co a v pt dh u ts pid s1 evs h => ?_⟩
  · have hc := applyTxs_counter (initState d) txs
    unfold getTotalProperties
    rw [hc]
    simp [initState]
  · exact locToId_applyTxs_zero_iff rfl txs
  · exact (Inv_applyTxs (Inv_initState d) txs).2.2 pid h
  · exact (registerProperty_ok_elim h).1

theorem claim_C10_witness :
    getTotalProperties (applyTxs (initState 1) (wGrants ++ [wReg])) =
      successfulRegisterCount (initState 1) (wGrants ++ [wReg]) ∧
    (getPropertyIdByLocation (applyTxs (initState 1) (wGrants ++ [wReg]))
        "Ouaga parcel 12" = 0 ↔
      registeredAt "Ouaga parcel 12" (initState 1) (wGrants ++ [wReg]) = false) ∧
    (1 ≤ 1 ∧ 1 ≤ getTotalProperties (applyTxs (initState 1) (wGrants ++ [wReg]))) ∧
    (1 : Nat) = wBase.propertyIdCounter + 1 := by
  have T := claim_C10_id_discipline 1 (wGrants ++ [wReg])
  refine ⟨T.1, T.2.1 "Ouaga parcel 12", T.2.2.1 1 (by decide), ?_⟩
  exact T.2.2.2 wBase 2 3 "Ouaga parcel 12" "12.37,-1.52" 400 9000 .RESIDENTIAL
    "QmHash" "ipfs://uri" 100 1
    (registerPost wBase 2 3 "Ouaga parcel 12" "12.37,-1.52" 400 9000 .RESIDENTIAL
      "QmHash" "ipfs://uri" 100)
    [.PropertyRegistered 1 3 "Ouaga parcel 12" 9000 2] rfl

end LandRegistry

namespace ApiClient

/-- C9: the response interceptor always propagates the error; on status 401
it removes `auth_token` from local storage before doing so, and on any
other status it leaves the client state (in particular the stored token)
unchanged. -/
theorem claim_C9_unauthorized_clears_token (st : ClientState) (status : Option Nat) :
    ((responseErrorInterceptor st status).2 = true) ∧
    (status = some 401 →
      (responseErrorInterceptor st status).1.localStorage "auth_token" = none) ∧
    (status ≠ some 401 → (responseErrorInterceptor st status).1 = st) := by
  unfold responseErrorInterceptor
  refine ⟨?_, ?_, ?_⟩
  · split_ifs <;> rfl
  · intro h
    rw [if_pos h]
    simp
  · intro h
    rw [if_neg h]

theorem claim_C9_witness :
    ((responseErrorInterceptor ⟨fun k => if k = "auth_token" then some "tok" else none,
        "/home"⟩ (some 401)).1.localStorage "auth_token" = none) ∧
    ((responseErrorInterceptor ⟨fun k => if k = "auth_token" then some "tok" else none,
        "/home"⟩ (some 500)).1 =
      ⟨fun k => if k = "auth_token" then some "tok" else none, "/home"⟩) :=
  ⟨(claim_C9_unauthorized_clears_token
      ⟨fun k => if k = "auth_token" then some "tok" else none, "/home"⟩
      (some 401)).2.1 rfl,
   (claim_C9_unauthorized_clears_token
      ⟨fun k => if k = "auth_token" then some "tok" else none, "/home"⟩
      (some 500)).2.2 (by decide)⟩

end ApiClient
